import Mathlib

/-!
# CartHaven (`src/home.tsx`) — verification of the cart/filter state logic

Shallow embedding of the storefront component in `src/home.tsx`:

* JS strings are modelled as `List Char` (`Str`); `String.prototype.toLowerCase`
  becomes `Char.toLower` mapped over the characters, and
  `String.prototype.includes` becomes the boolean contiguous-sublist test
  `containsSub`.
* JS numbers used as integers (product ids, quantities, deltas) are modelled
  as `Int`; prices, which are decimal amounts, are modelled as `Rat`.
* React state setters become pure functions from the old state to the new
  state; the cart is a `List CartItem` exactly as in the component.
-/

set_option autoImplicit false

namespace CartHaven

/-- JS strings, as lists of characters. -/
abbrev Str := List Char

/-- JS `String.prototype.toLowerCase`, characterwise. -/
def lowerStr (s : Str) : Str := s.map Char.toLower

/-- Tests whether `needle` is a prefix of `hay` (helper for `containsSub`). -/
def startsWith : Str → Str → Bool
  | _, [] => true
  | [], _ :: _ => false
  | c :: cs, d :: ds => c == d && startsWith cs ds

/-- Embeds `hay.includes(needle)`: `needle` occurs contiguously inside `hay`. -/
def containsSub : Str → Str → Bool
  | [], needle => startsWith [] needle
  | c :: t, needle => startsWith (c :: t) needle || containsSub t needle

/-- The `rating` record with `rate` and `count` of a product (lines 4–7 of `home.tsx`). -/
structure Rating where
  rate : Rat
  count : Int
  deriving DecidableEq, Repr

/-- The `interface Product` of lines 9–17 of `home.tsx`. -/
structure Product where
  id : Int
  title : Str
  price : Rat
  description : Option Str
  category : Str
  image : Str
  rating : Rating
  deriving DecidableEq, Repr

/-- The `interface CartItem extends Product` with a `quantity` (lines 19–21). -/
structure CartItem extends Product where
  quantity : Int
  deriving DecidableEq, Repr

/-- The category sentinel `all` meaning "no category filter". -/
def allStr : Str := ['a', 'l', 'l']

/--
The settled visible-product list. Lines 84–88 of `home.tsx` recompute
`filteredProducts` from `(products, selectedCategory, searchQuery)`; this
effect depends on all three inputs and runs after the category-only effect
(lines 74–81), so its value is the one that persists after any input change.
-/
def visibleProducts (products : List Product) (selectedCategory search : Str) :
    List Product :=
  (if selectedCategory == allStr then products
   else products.filter (fun p => p.category == selectedCategory)).filter
    (fun p => containsSub (lowerStr p.title) (lowerStr search))

/-- Lookup by id, as in `cart.find(item => item.id === product.id)`. -/
def lookup (cart : List CartItem) (id : Int) : Option CartItem :=
  cart.find? (fun item => item.id == id)

/-- Embeds `addToCart` (lines 90–101): increment the existing entry, else append
a fresh entry with quantity 1. -/
def addToCart (cart : List CartItem) (product : Product) : List CartItem :=
  match lookup cart product.id with
  | some _ =>
      cart.map (fun item =>
        if item.id == product.id
        then { item with quantity := item.quantity + 1 }
        else item)
  | none => cart ++ [{ toProduct := product, quantity := 1 }]

/-- Embeds `updateQuantity` (lines 103–109): add `delta` floored at 0 to the
matching entry, then drop every entry whose quantity is not positive. -/
def updateQuantity (cart : List CartItem) (id : Int) (delta : Int) :
    List CartItem :=
  (cart.map (fun item =>
      if item.id == id
      then { item with quantity := max 0 (item.quantity + delta) }
      else item)).filter (fun item => decide (0 < item.quantity))

/-- Embeds `removeFromCart` (lines 111–113): drop the entry with this id. -/
def removeFromCart (cart : List CartItem) (id : Int) : List CartItem :=
  cart.filter (fun item => !(item.id == id))

/-- Embeds `totalCost` (line 115): left fold of `price * quantity` over the cart. -/
def totalCost (cart : List CartItem) : Rat :=
  cart.foldl (fun sum item => sum + item.price * (item.quantity : Rat)) 0

/-- Embeds `totalItems` (line 116): left fold of the quantities over the cart. -/
def totalItems (cart : List CartItem) : Int :=
  cart.foldl (fun sum item => sum + item.quantity) 0

/-- The ids of the cart entries, in cart order. -/
def cartIds (cart : List CartItem) : List Int :=
  cart.map (fun item => item.id)

/-- The cart invariants of spec §3: at most one entry per product id, and
every quantity positive. -/
abbrev CartInv (cart : List CartItem) : Prop :=
  (cartIds cart).Nodup ∧ ∀ item ∈ cart, 0 < item.quantity

/-- Cart states reachable from the empty cart by the three operations. -/
inductive Reachable : List CartItem → Prop
  | empty : Reachable []
  | add (cart : List CartItem) (p : Product) :
      Reachable cart → Reachable (addToCart cart p)
  | update (cart : List CartItem) (id delta : Int) :
      Reachable cart → Reachable (updateQuantity cart id delta)
  | remove (cart : List CartItem) (id : Int) :
      Reachable cart → Reachable (removeFromCart cart id)

/-- A sample rating for concrete test inputs. -/
def rating0 : Rating := { rate := 4, count := 10 }

/-- A sample product for concrete test inputs. -/
def prodA : Product :=
  { id := 1, title := ['a'], price := 10, description := none
    category := ['e'], image := ['u'], rating := rating0 }

/-- A second sample product, distinct id. -/
def prodB : Product :=
  { id := 2, title := ['b'], price := 5, description := none
    category := ['j'], image := ['v'], rating := rating0 }

/-- A failure of the catalog fetch (lines 52–64 of `home.tsx`): a non-ok
HTTP response (which throws an `Error` carrying the fixed message), some other
thrown `Error` carrying a message, or a thrown non-`Error` value. -/
inductive FetchFailure where
  | badStatus : FetchFailure
  | thrownError : Str → FetchFailure
  | thrownOther : FetchFailure
  deriving DecidableEq, Repr

/-- The message the `catch` block (lines 62–64) stores for each failure:
the message of a thrown `Error`, else the generic fallback text. -/
def failureMessage : FetchFailure → Str
  | FetchFailure.badStatus => ("Failed to fetch products").data
  | FetchFailure.thrownError msg => msg
  | FetchFailure.thrownOther => ("An error occurred while fetching products").data

/-- The component state touched by the fetch effect (lines 29–35). -/
structure AppState where
  products : List Product
  filteredProducts : List Product
  loading : Bool
  error : Str
  deriving DecidableEq, Repr

/-- The initial component state (lines 29–36): empty catalog, loading. -/
def initialState : AppState :=
  { products := [], filteredProducts := [], loading := true, error := [] }

/-- Embeds `fetchProducts` (lines 47–71) as a pure step on the component state,
parameterised by the outcome of the awaited request: `setLoading(true)`
and `setError` with the empty string first, then the success updates or the `catch`
update, and `setLoading(false)` in `finally`. -/
def fetchProducts (s : AppState) (result : Except FetchFailure (List Product)) :
    AppState :=
  let s1 := { s with loading := true, error := ([] : Str) }
  match result with
  | Except.ok data =>
      { s1 with products := data, filteredProducts := data, loading := false }
  | Except.error e =>
      { s1 with error := failureMessage e, loading := false }

example : addToCart [] prodA = [{ toProduct := prodA, quantity := 1 }] := by decide
example : addToCart (addToCart [] prodA) prodA =
    [{ toProduct := prodA, quantity := 2 }] := by decide
example : updateQuantity (addToCart [] prodA) 1 (-1) = [] := by decide
example : totalCost [{ toProduct := prodA, quantity := 2 },
    { toProduct := prodB, quantity := 1 }] = 25 := by
  norm_num [totalCost, prodA, prodB]
example : totalItems [{ toProduct := prodA, quantity := 2 },
    { toProduct := prodB, quantity := 1 }] = 3 := by decide
example : visibleProducts [prodA, prodB] allStr [] = [prodA, prodB] := by decide
example : visibleProducts [prodA, prodB] ['e'] [] = [prodA] := by decide
example : visibleProducts [prodA, prodB] allStr ['B'] = [prodB] := by decide

/-! ## Helper lemmas -/

lemma quantity_set_id (i : CartItem) (n : Int) :
    ({ i with quantity := n } : CartItem).id = i.id := rfl

lemma lookup_nil (id : Int) : lookup [] id = none := rfl

lemma lookup_eq_none {c : List CartItem} {id : Int} :
    lookup c id = none ↔ ∀ i ∈ c, ¬(i.id = id) := by
  simp [lookup, List.find?_eq_none]

lemma lookup_some_mem {c : List CartItem} {id : Int} {item : CartItem}
    (h : lookup c id = some item) : item ∈ c :=
  List.mem_of_find?_eq_some h

lemma lookup_some_id {c : List CartItem} {id : Int} {item : CartItem}
    (h : lookup c id = some item) : item.id = id := by
  have := List.find?_some h
  simpa using this

lemma lookup_map (f : CartItem → CartItem) (hf : ∀ i, (f i).id = i.id)
    (c : List CartItem) (id : Int) :
    lookup (c.map f) id = (lookup c id).map f := by
  unfold lookup
  rw [List.find?_map]
  have hpred : ((fun item : CartItem => item.id == id) ∘ f)
      = (fun item : CartItem => item.id == id) := by
    funext i
    simp [Function.comp, hf]
  rw [hpred]

lemma cartIds_cons (a : CartItem) (t : List CartItem) :
    cartIds (a :: t) = a.id :: cartIds t := rfl

lemma lookup_cons (a : CartItem) (t : List CartItem) (id : Int) :
    lookup (a :: t) id = if a.id == id then some a else lookup t id := by
  cases h : a.id == id <;> simp [lookup, List.find?_cons, h]

lemma lookup_unique {c : List CartItem} {id : Int} {item : CartItem}
    (hnd : (cartIds c).Nodup) (h : lookup c id = some item) :
    ∀ i ∈ c, i.id = id → i = item := by
  induction c with
  | nil => simp
  | cons a t ih =>
    rw [cartIds_cons, List.nodup_cons] at hnd
    rw [lookup_cons] at h
    intro i hi hiid
    by_cases ha : a.id = id
    · rw [if_pos (beq_iff_eq.mpr ha)] at h
      rcases List.mem_cons.mp hi with rfl | hit
      · exact Option.some_inj.mp h
      · refine absurd ?memt hnd.1
        rw [ha, ← hiid]
        exact List.mem_map_of_mem (fun j : CartItem => j.id) hit
    · rw [if_neg (fun hc => ha (beq_iff_eq.mp hc))] at h
      rcases List.mem_cons.mp hi with rfl | hit
      · exact absurd hiid ha
      · exact ih hnd.2 h i hit hiid

lemma cartIds_map (f : CartItem → CartItem) (hf : ∀ i, (f i).id = i.id)
    (c : List CartItem) : cartIds (c.map f) = cartIds c := by
  unfold cartIds
  rw [List.map_map]
  exact List.map_congr_left (fun i _ => hf i)

lemma cartIds_append (c d : List CartItem) :
    cartIds (c ++ d) = cartIds c ++ cartIds d := by
  simp [cartIds]

/-- When the incoming id is absent, `addToCart` appends a quantity-1 entry. -/
lemma addToCart_of_none {c : List CartItem} {p : Product}
    (h : lookup c p.id = none) :
    addToCart c p = c ++ [{ toProduct := p, quantity := 1 }] := by
  unfold addToCart
  rw [h]

/-- When the incoming id is present, `addToCart` maps the increment over the cart. -/
lemma addToCart_of_some {c : List CartItem} {p : Product} {item : CartItem}
    (h : lookup c p.id = some item) :
    addToCart c p = c.map (fun i =>
      if i.id == p.id then { i with quantity := i.quantity + 1 } else i) := by
  unfold addToCart
  rw [h]

/-- If every entry is positive and the targeted entries stay positive,
`updateQuantity` is just the pointwise addition of `delta`. -/
lemma updateQuantity_of_pos {c : List CartItem} {id delta : Int}
    (h : ∀ i ∈ c, 0 < i.quantity ∧ (i.id = id → 0 < i.quantity + delta)) :
    updateQuantity c id delta = c.map (fun i =>
      if i.id == id then { i with quantity := i.quantity + delta } else i) := by
  unfold updateQuantity
  have hmap : c.map (fun i =>
      if i.id == id then { i with quantity := max 0 (i.quantity + delta) } else i)
      = c.map (fun i =>
      if i.id == id then { i with quantity := i.quantity + delta } else i) := by
    apply List.map_congr_left
    intro i hi
    by_cases hid : i.id = id
    · have hmax : max 0 (i.quantity + delta) = i.quantity + delta :=
        max_eq_right (le_of_lt ((h i hi).2 hid))
      simp [hid, hmax]
    · simp [hid]
  rw [hmap]
  apply List.filter_eq_self.mpr
  intro x hx
  rcases List.mem_map.mp hx with ⟨i, hi, rfl⟩
  by_cases hid : i.id = id
  · simp only [hid, beq_self_eq_true, if_true, decide_eq_true_eq]
    exact (h i hi).2 hid
  · simpa [hid] using (h i hi).1

/-- If every entry is positive and the targeted entries would drop to `≤ 0`,
`updateQuantity` coincides with `removeFromCart`. -/
lemma updateQuantity_of_nonpos {c : List CartItem} {id delta : Int}
    (h : ∀ i ∈ c, 0 < i.quantity ∧ (i.id = id → i.quantity + delta ≤ 0)) :
    updateQuantity c id delta = removeFromCart c id := by
  unfold updateQuantity removeFromCart
  rw [List.filter_map]
  have hfil : c.filter ((fun item : CartItem => decide (0 < item.quantity)) ∘
      (fun item : CartItem =>
        if item.id == id then { item with quantity := max 0 (item.quantity + delta) }
        else item))
      = c.filter (fun item => !(item.id == id)) := by
    apply List.filter_congr
    intro i hi
    by_cases hid : i.id = id
    · have hmax : max 0 (i.quantity + delta) = 0 := max_eq_left ((h i hi).2 hid)
      simp [Function.comp, hid, hmax]
    · simp [Function.comp, hid, (h i hi).1]
  rw [hfil]
  have hmapid : ∀ i ∈ c.filter (fun item => !(item.id == id)),
      (if i.id == id then { i with quantity := max 0 (i.quantity + delta) } else i) = i := by
    intro i hi
    have := List.of_mem_filter hi
    simp only [Bool.not_eq_true'] at this
    rw [if_neg (by simp [this])]
  rw [List.map_congr_left hmapid]
  simp

/-- Every entry surviving `updateQuantity` has positive quantity. -/
lemma updateQuantity_pos_quantity (c : List CartItem) (id delta : Int) :
    ∀ i ∈ updateQuantity c id delta, 0 < i.quantity := by
  intro i hi
  have := List.of_mem_filter hi
  simpa using this

/-- Applying `removeFromCart` with an absent id is the identity. -/
lemma removeFromCart_of_none {c : List CartItem} {id : Int}
    (h : lookup c id = none) : removeFromCart c id = c := by
  apply List.filter_eq_self.mpr
  intro i hi
  simpa using lookup_eq_none.mp h i hi

lemma quantity_set_quantity (i : CartItem) (n : Int) :
    ({ i with quantity := n } : CartItem).quantity = n := rfl

/-- The increment function used by `addToCart` preserves ids. -/
lemma addIncr_id (p : Product) : ∀ i : CartItem,
    ((if i.id == p.id then { i with quantity := i.quantity + 1 } else i) : CartItem).id
      = i.id := by
  intro i
  by_cases hid : i.id = p.id <;> simp [hid]

/-- The flooring function used by `updateQuantity` preserves ids. -/
lemma updFloor_id (id delta : Int) : ∀ i : CartItem,
    ((if i.id == id then { i with quantity := max 0 (i.quantity + delta) } else i) :
      CartItem).id = i.id := by
  intro i
  by_cases hid : i.id = id <;> simp [hid]

lemma addToCart_nodup {c : List CartItem} {p : Product}
    (hnd : (cartIds c).Nodup) : (cartIds (addToCart c p)).Nodup := by
  cases hl : lookup c p.id with
  | some item =>
    rw [addToCart_of_some hl, cartIds_map _ (addIncr_id p)]
    exact hnd
  | none =>
    rw [addToCart_of_none hl, cartIds_append]
    rw [List.nodup_append]
    refine ⟨hnd, List.nodup_singleton _, ?_⟩
    intro a ha hb
    rcases List.mem_map.mp ha with ⟨i, hi, rfl⟩
    have hne := lookup_eq_none.mp hl i hi
    simp [cartIds] at hb
    exact hne hb

lemma addToCart_pos {c : List CartItem} {p : Product}
    (hpos : ∀ i ∈ c, 0 < i.quantity) : ∀ i ∈ addToCart c p, 0 < i.quantity := by
  intro i hi
  cases hl : lookup c p.id with
  | some item =>
    rw [addToCart_of_some hl] at hi
    rcases List.mem_map.mp hi with ⟨j, hj, rfl⟩
    by_cases hid : j.id = p.id
    · have := hpos j hj
      simp only [hid, beq_self_eq_true, if_true, quantity_set_quantity]
      omega
    · simpa [hid] using hpos j hj
  | none =>
    rw [addToCart_of_none hl] at hi
    rcases List.mem_append.mp hi with hj | hj
    · exact hpos i hj
    · have hij : i = { toProduct := p, quantity := 1 } := by simpa using hj
      rw [hij]
      show (0 : Int) < 1
      decide

lemma updateQuantity_ids_sublist (c : List CartItem) (id delta : Int) :
    List.Sublist (cartIds (updateQuantity c id delta)) (cartIds c) := by
  have h1 : List.Sublist (updateQuantity c id delta)
      (c.map (fun i =>
        if i.id == id then { i with quantity := max 0 (i.quantity + delta) } else i)) :=
    List.filter_sublist _
  have h2 := h1.map (fun i : CartItem => i.id)
  have h3 : cartIds (c.map (fun i =>
      if i.id == id then { i with quantity := max 0 (i.quantity + delta) } else i))
      = cartIds c := cartIds_map _ (updFloor_id id delta) c
  rw [← h3]
  exact h2

lemma removeFromCart_sublist (c : List CartItem) (id : Int) :
    List.Sublist (removeFromCart c id) c :=
  List.filter_sublist c

lemma cartInv_addToCart {c : List CartItem} (p : Product)
    (h : CartInv c) : CartInv (addToCart c p) :=
  ⟨addToCart_nodup h.1, addToCart_pos h.2⟩

lemma cartInv_updateQuantity {c : List CartItem} (id delta : Int)
    (h : CartInv c) : CartInv (updateQuantity c id delta) :=
  ⟨List.Nodup.sublist (updateQuantity_ids_sublist c id delta) h.1,
   updateQuantity_pos_quantity c id delta⟩

lemma cartInv_removeFromCart {c : List CartItem} (id : Int)
    (h : CartInv c) : CartInv (removeFromCart c id) :=
  ⟨List.Nodup.sublist ((removeFromCart_sublist c id).map (fun i : CartItem => i.id)) h.1,
   fun i hi => h.2 i ((removeFromCart_sublist c id).subset hi)⟩

/-- Adding a product twice to a cart that lacked it: one entry, quantity 2. -/
lemma addToCart_twice_of_none {cart : List CartItem} {p : Product}
    (h : lookup cart p.id = none) :
    addToCart (addToCart cart p) p
      = cart ++ [{ toProduct := p, quantity := 2 }] := by
  rw [addToCart_of_none h]
  have hl : lookup (cart ++ [{ toProduct := p, quantity := 1 }]) p.id
      = some { toProduct := p, quantity := 1 } := by
    unfold lookup at h ⊢
    rw [List.find?_append, h]
    simp
  rw [addToCart_of_some hl, List.map_append]
  congr 1
  · have hcongr : ∀ i ∈ cart,
        (if i.id == p.id then { i with quantity := i.quantity + 1 } else i) = i := by
      intro i hi
      rw [if_neg (by simp [lookup_eq_none.mp h i hi])]
    rw [List.map_congr_left hcongr]
    simp
  · simp

/-- Two pointwise quantity updates at the same id compose additively. -/
lemma map_update_update (c : List CartItem) (id d1 d2 : Int) :
    (c.map (fun i =>
      if i.id == id then { i with quantity := i.quantity + d1 } else i)).map
      (fun i => if i.id == id then { i with quantity := i.quantity + d2 } else i)
    = c.map (fun i =>
      if i.id == id then { i with quantity := i.quantity + (d1 + d2) } else i) := by
  rw [List.map_map]
  apply List.map_congr_left
  intro i _
  by_cases hid : i.id = id
  · simp [Function.comp, hid, add_assoc]
  · simp [Function.comp, hid]

/-- A left fold accumulating `+ f i` computes the sum of the mapped list. -/
lemma foldl_add_eq_sum {M : Type} [AddCommMonoid M] (f : CartItem → M)
    (a : M) (c : List CartItem) :
    c.foldl (fun s i => s + f i) a = a + (c.map f).sum := by
  induction c generalizing a with
  | nil => simp
  | cons x t ih => simp [ih, add_assoc]

/-! ## Claims -/

/--
C1: For every catalog `P`, selected category `k`, and search text `s`, the
settled visible list (`visibleProducts`, the recomputation of lines 84–88 of
`home.tsx`, which runs after — and therefore overrides — the category-only
effect of lines 74–81) is exactly the products of `P` satisfying
`(k == all ∨ p.category == k) ∧ title contains s case-insensitively`,
it is a sublist of `P` (so the catalog's relative order is preserved, with no
sorting introduced), and the empty search text matches every title.
-/
theorem visibleProducts_matches_filter_spec (P : List Product) (k s : Str) :
    visibleProducts P k s
      = P.filter (fun p => (k == allStr || p.category == k)
          && containsSub (lowerStr p.title) (lowerStr s))
    ∧ List.Sublist (visibleProducts P k s) P
    ∧ ∀ t : Str, containsSub (lowerStr t) (lowerStr []) = true := by
  refine ⟨?_, ?_, ?_⟩
  · unfold visibleProducts
    by_cases hk : (k == allStr) = true
    · rw [if_pos hk]
      apply List.filter_congr
      intro p hp
      simp [hk]
    · rw [if_neg hk]
      have hk' : (k == allStr) = false := by simpa using hk
      rw [List.filter_filter]
      apply List.filter_congr
      intro p hp
      rw [hk']
      cases containsSub (lowerStr p.title) (lowerStr s) <;>
        cases hpc : (p.category == k) <;> simp
  · unfold visibleProducts
    by_cases hk : (k == allStr) = true
    · rw [if_pos hk]
      exact List.filter_sublist P
    · rw [if_neg hk]
      exact (List.filter_sublist _).trans (List.filter_sublist P)
  · intro t
    show containsSub (lowerStr t) [] = true
    cases lowerStr t <;> simp [containsSub, startsWith]

/--
C2: Every cart state reachable from the empty cart by any sequence of
`addToCart`, `updateQuantity` and `removeFromCart` calls satisfies the §3
invariants: at most one entry per product id (`cartIds` has no duplicate)
and every entry's quantity strictly positive.
-/
theorem reachable_cart_invariant (c : List CartItem) (h : Reachable c) :
    CartInv c := by
  induction h with
  | empty => exact ⟨List.nodup_nil, by simp⟩
  | add cart p _ ih => exact cartInv_addToCart p ih
  | update cart id delta _ ih => exact cartInv_updateQuantity id delta ih
  | remove cart id _ ih => exact cartInv_removeFromCart id ih

/-- Witness for C2 at a concrete reachable cart. -/
theorem reachable_cart_invariant_witness :
    CartInv (updateQuantity (addToCart (addToCart [] prodA) prodB) 2 3) :=
  reachable_cart_invariant _
    (Reachable.update _ 2 3
      (Reachable.add _ prodB (Reachable.add [] prodA Reachable.empty)))

/--
C3: On a cart satisfying the §3 invariants, `addToCart p` appends a
fresh quantity-1 entry when `p.id` is absent (and doing it twice yields one
entry with quantity 2, not two entries), increments the existing entry by
exactly 1 when `p.id` is present while leaving all other entries unchanged,
and never produces two entries with the same id.
-/
theorem addToCart_upsert_spec (cart : List CartItem) (p : Product)
    (hinv : CartInv cart) :
    (lookup cart p.id = none →
       addToCart cart p = cart ++ [{ toProduct := p, quantity := 1 }]
       ∧ addToCart (addToCart cart p) p
           = cart ++ [{ toProduct := p, quantity := 2 }])
    ∧ (∀ item, lookup cart p.id = some item →
         lookup (addToCart cart p) p.id
             = some { item with quantity := item.quantity + 1 }
         ∧ (addToCart cart p).filter (fun i => !(i.id == p.id))
             = cart.filter (fun i => !(i.id == p.id)))
    ∧ (cartIds (addToCart cart p)).Nodup := by
  refine ⟨fun h => ⟨addToCart_of_none h, addToCart_twice_of_none h⟩,
    fun item hsome => ⟨?_, ?_⟩, addToCart_nodup hinv.1⟩
  · have hid := lookup_some_id hsome
    rw [addToCart_of_some hsome, lookup_map _ (addIncr_id p), hsome,
      Option.map_some', if_pos (beq_iff_eq.mpr hid)]
  · rw [addToCart_of_some hsome, List.filter_map]
    have hpred : ((fun i : CartItem => !(i.id == p.id)) ∘
        (fun i : CartItem =>
          if i.id == p.id then { i with quantity := i.quantity + 1 } else i))
        = fun i : CartItem => !(i.id == p.id) := by
      funext i
      rw [Function.comp_apply, addIncr_id p i]
    rw [hpred]
    have hmapid : ∀ i ∈ cart.filter (fun i : CartItem => !(i.id == p.id)),
        (if i.id == p.id then { i with quantity := i.quantity + 1 } else i) = i := by
      intro i hi
      have hmem := List.of_mem_filter hi
      simp only [Bool.not_eq_true'] at hmem
      rw [if_neg (by simp [hmem])]
    rw [List.map_congr_left hmapid]
    simp

/-- Witness for C3: both the fresh-insert and double-add clauses at a
concrete cart. -/
theorem addToCart_upsert_spec_witness :
    addToCart [] prodA = [{ toProduct := prodA, quantity := 1 }]
    ∧ addToCart (addToCart [] prodA) prodA
        = [{ toProduct := prodA, quantity := 2 }] := by
  have h := addToCart_upsert_spec [] prodA (by decide)
  exact ⟨(h.1 rfl).1, (h.1 rfl).2⟩

/--
C4: On a cart satisfying the §3 invariants, `updateQuantity id delta`
adds `delta` to the quantity of the entry with that id when the result stays
positive, removes the entry in the same operation when the result would be
`≤ 0` (so it coincides with `removeFromCart`), never leaves an entry with
quantity `≤ 0`, and is a no-op when no entry with that id exists.
-/
theorem updateQuantity_spec (cart : List CartItem) (id delta : Int)
    (hinv : CartInv cart) :
    (∀ item, lookup cart id = some item → 0 < item.quantity + delta →
       updateQuantity cart id delta = cart.map (fun i =>
         if i.id == id then { i with quantity := i.quantity + delta } else i))
    ∧ (∀ item, lookup cart id = some item → item.quantity + delta ≤ 0 →
       updateQuantity cart id delta = removeFromCart cart id)
    ∧ (∀ i ∈ updateQuantity cart id delta, 0 < i.quantity)
    ∧ (lookup cart id = none → updateQuantity cart id delta = cart) := by
  refine ⟨?_, ?_, updateQuantity_pos_quantity cart id delta, ?_⟩
  · intro item hsome hpos
    apply updateQuantity_of_pos
    intro i hi
    refine ⟨hinv.2 i hi, fun hid => ?_⟩
    rw [lookup_unique hinv.1 hsome i hi hid]
    exact hpos
  · intro item hsome hle
    apply updateQuantity_of_nonpos
    intro i hi
    refine ⟨hinv.2 i hi, fun hid => ?_⟩
    rw [lookup_unique hinv.1 hsome i hi hid]
    exact hle
  · intro hnone
    rw [updateQuantity_of_pos (fun i hi =>
      ⟨hinv.2 i hi, fun hid => absurd hid (lookup_eq_none.mp hnone i hi)⟩)]
    have hmapid : ∀ i ∈ cart,
        (if i.id == id then { i with quantity := i.quantity + delta } else i) = i := by
      intro i hi
      rw [if_neg (by simp [lookup_eq_none.mp hnone i hi])]
    rw [List.map_congr_left hmapid]
    simp

/-- Witness for C4: decrement, removal at zero, and unknown-id no-op at
concrete carts. -/
theorem updateQuantity_spec_witness :
    updateQuantity [{ toProduct := prodA, quantity := 2 }] 1 (-1)
        = [{ toProduct := prodA, quantity := 1 }]
    ∧ updateQuantity [{ toProduct := prodA, quantity := 2 }] 1 (-2) = []
    ∧ updateQuantity [{ toProduct := prodA, quantity := 2 }] 5 3
        = [{ toProduct := prodA, quantity := 2 }] := by
  refine ⟨?_, ?_, ?_⟩
  · have h := (updateQuantity_spec [{ toProduct := prodA, quantity := 2 }] 1 (-1)
      (by decide)).1 { toProduct := prodA, quantity := 2 } (by decide) (by decide)
    rw [h]
    decide
  · have h := (updateQuantity_spec [{ toProduct := prodA, quantity := 2 }] 1 (-2)
      (by decide)).2.1 { toProduct := prodA, quantity := 2 } (by decide) (by decide)
    rw [h]
    decide
  · exact (updateQuantity_spec [{ toProduct := prodA, quantity := 2 }] 5 3
      (by decide)).2.2.2 (by decide)

/--
C5: On a cart satisfying the §3 invariants, `addToCart p` followed by
`updateQuantity p.id (-1)` restores exactly the original cart; in
particular a freshly inserted entry is removed again.
-/
theorem add_then_decrement_roundtrip (cart : List CartItem) (p : Product)
    (hinv : CartInv cart) :
    updateQuantity (addToCart cart p) p.id (-1) = cart := by
  cases hl : lookup cart p.id with
  | none =>
    have hcond : ∀ i ∈ cart ++ [{ toProduct := p, quantity := 1 }],
        0 < i.quantity ∧ (i.id = p.id → i.quantity + (-1) ≤ 0) := by
      intro i hi
      rcases List.mem_append.mp hi with hic | his
      · exact ⟨hinv.2 i hic, fun hid => absurd hid (lookup_eq_none.mp hl i hic)⟩
      · have hieq : i = { toProduct := p, quantity := 1 } := by simpa using his
        rw [hieq]
        exact ⟨show (0 : Int) < 1 by decide, fun _ => show (1 : Int) + -1 ≤ 0 by decide⟩
    rw [addToCart_of_none hl, updateQuantity_of_nonpos hcond]
    unfold removeFromCart
    rw [List.filter_append]
    have h1 : cart.filter (fun i => !(i.id == p.id)) = cart :=
      List.filter_eq_self.mpr (fun i hi => by simp [lookup_eq_none.mp hl i hi])
    have h2 : ([{ toProduct := p, quantity := 1 }] : List CartItem).filter
        (fun i => !(i.id == p.id)) = [] := by simp
    rw [h1, h2, List.append_nil]
  | some item =>
    rw [addToCart_of_some hl]
    have hcond : ∀ i ∈ cart.map (fun i : CartItem =>
        if i.id == p.id then { i with quantity := i.quantity + 1 } else i),
        0 < i.quantity ∧ (i.id = p.id → 0 < i.quantity + (-1)) := by
      intro i hi
      rcases List.mem_map.mp hi with ⟨j, hj, rfl⟩
      have hq := hinv.2 j hj
      by_cases hjd : j.id = p.id
      · simp only [hjd, beq_self_eq_true, if_true, quantity_set_quantity,
          quantity_set_id]
        exact ⟨by omega, fun _ => by omega⟩
      · simp only [if_neg (by simp [hjd] : ¬((j.id == p.id) = true))]
        exact ⟨hq, fun h => absurd h hjd⟩
    rw [updateQuantity_of_pos hcond, map_update_update]
    have hmapid : ∀ i ∈ cart,
        (if i.id == p.id then { i with quantity := i.quantity + (1 + -1) }
         else i) = i := by
      intro i hi
      by_cases hid : i.id = p.id
      · simp [hid]
      · simp [hid]
    rw [List.map_congr_left hmapid]
    simp

/-- Witness for C5 at concrete carts, covering both the fresh-insert and
the existing-entry case. -/
theorem add_then_decrement_roundtrip_witness :
    updateQuantity (addToCart [] prodA) prodA.id (-1) = []
    ∧ updateQuantity
        (addToCart [{ toProduct := prodA, quantity := 3 }] prodA) prodA.id (-1)
        = [{ toProduct := prodA, quantity := 3 }] :=
  ⟨add_then_decrement_roundtrip [] prodA (by decide),
   add_then_decrement_roundtrip [{ toProduct := prodA, quantity := 3 }] prodA
     (by decide)⟩

/--
C6: `totalCost` is exactly the sum over the cart of `price × quantity`
and `totalItems` exactly the sum of the quantities — both pure derivations
of the cart value. At the concrete cart `{(price 10, qty 2), (price 5,
qty 1)}` they compute `25` and `3`.
-/
theorem totals_are_derived_sums (cart : List CartItem) :
    totalCost cart = (cart.map (fun i => i.price * (i.quantity : Rat))).sum
    ∧ totalItems cart = (cart.map (fun i => i.quantity)).sum
    ∧ totalCost [{ toProduct := prodA, quantity := 2 },
        { toProduct := prodB, quantity := 1 }] = 25
    ∧ totalItems [{ toProduct := prodA, quantity := 2 },
        { toProduct := prodB, quantity := 1 }] = 3 := by
  refine ⟨?_, ?_, ?_, by decide⟩
  · rw [totalCost, foldl_add_eq_sum, zero_add]
  · rw [totalItems, foldl_add_eq_sum, zero_add]
  · norm_num [totalCost, prodA, prodB]

/--
C7: The catalog fetch, as the pure step `fetchProducts` on the
component state: on success it stores the decoded list in the catalog,
clears any prior error and ends loading; on failure (bad HTTP status or a
thrown error) it stores the corresponding descriptive message, ends
loading, and — the fetch being the only writer of `products` — leaves a
previously empty catalog empty. The model applies the step exactly once,
matching the absence of any retry in lines 47–71.
-/
theorem fetchProducts_success_failure_spec (s : AppState)
    (data : List Product) (e : FetchFailure) :
    ((fetchProducts s (Except.ok data)).products = data
      ∧ (fetchProducts s (Except.ok data)).error = []
      ∧ (fetchProducts s (Except.ok data)).loading = false)
    ∧ ((fetchProducts s (Except.error e)).error = failureMessage e
      ∧ (fetchProducts s (Except.error e)).loading = false
      ∧ (s.products = [] → (fetchProducts s (Except.error e)).products = [])) :=
  ⟨⟨rfl, rfl, rfl⟩, ⟨rfl, rfl, fun h => h⟩⟩

/-- Witness for C7 from the initial (empty, loading) state. -/
theorem fetchProducts_spec_witness :
    (fetchProducts initialState (Except.ok [prodA])).products = [prodA]
    ∧ (fetchProducts initialState (Except.error FetchFailure.badStatus)).products
        = []
    ∧ (fetchProducts initialState (Except.error FetchFailure.badStatus)).loading
        = false := by
  have h := fetchProducts_success_failure_spec initialState [prodA]
    FetchFailure.badStatus
  exact ⟨h.1.1, h.2.2.2 rfl, h.2.2.1⟩

/--
C8: `removeFromCart id` deletes the entry with that id whatever its
quantity (no entry with that id survives), retains exactly the other
entries in their original order, and is a no-op when the id is absent.
-/
theorem removeFromCart_spec (cart : List CartItem) (id : Int) :
    lookup (removeFromCart cart id) id = none
    ∧ (∀ i, i ∈ removeFromCart cart id ↔ i ∈ cart ∧ ¬(i.id = id))
    ∧ List.Sublist (removeFromCart cart id) cart
    ∧ (lookup cart id = none → removeFromCart cart id = cart) := by
  refine ⟨?_, ?_, removeFromCart_sublist cart id, removeFromCart_of_none⟩
  · apply lookup_eq_none.mpr
    intro i hi
    have := List.of_mem_filter hi
    simpa using this
  · intro i
    constructor
    · intro hi
      refine ⟨List.mem_of_mem_filter hi, ?_⟩
      have := List.of_mem_filter hi
      simpa using this
    · rintro ⟨hic, hneq⟩
      exact List.mem_filter.mpr ⟨hic, by simp [hneq]⟩

/-- Witness for C8: removal regardless of quantity and the absent-id no-op
at concrete carts. -/
theorem removeFromCart_spec_witness :
    lookup (removeFromCart [{ toProduct := prodA, quantity := 5 }] 1) 1 = none
    ∧ removeFromCart [{ toProduct := prodA, quantity := 2 }] 2
        = [{ toProduct := prodA, quantity := 2 }] := by
  have h := removeFromCart_spec [{ toProduct := prodA, quantity := 5 }] 1
  have h' := removeFromCart_spec [{ toProduct := prodA, quantity := 2 }] 2
  exact ⟨h.1, h'.2.2.2 (by decide)⟩

/--
C9: On a cart satisfying the §3 invariants, decrementing an entry by
its whole quantity is the same cart as removing it:
`updateQuantity id (-q) = removeFromCart id` for the entry's quantity `q`.
-/
theorem updateQuantity_neg_total_eq_remove (cart : List CartItem) (id : Int)
    (item : CartItem) (hinv : CartInv cart) (h : lookup cart id = some item) :
    updateQuantity cart id (-item.quantity) = removeFromCart cart id := by
  apply updateQuantity_of_nonpos
  intro i hi
  refine ⟨hinv.2 i hi, fun hid => ?_⟩
  rw [lookup_unique hinv.1 h i hi hid]
  omega

/-- Witness for C9 at a concrete cart. -/
theorem updateQuantity_neg_total_eq_remove_witness :
    updateQuantity [{ toProduct := prodA, quantity := 2 }] 1 (-2)
      = removeFromCart [{ toProduct := prodA, quantity := 2 }] 1 :=
  updateQuantity_neg_total_eq_remove [{ toProduct := prodA, quantity := 2 }] 1
    { toProduct := prodA, quantity := 2 } (by decide) (by decide)

/--
C10: Each cart operation preserves the relative order of the entries it
retains: `addToCart` leaves the id sequence unchanged when the id is
present and appends the new entry at the end when it is absent, and
`updateQuantity` / `removeFromCart` produce sublists of the original id
sequence — so entries stay in insertion order.
-/
theorem cart_ops_preserve_order (cart : List CartItem) (p : Product)
    (id delta : Int) :
    ((lookup cart p.id).isSome → cartIds (addToCart cart p) = cartIds cart)
    ∧ (lookup cart p.id = none →
        addToCart cart p = cart ++ [{ toProduct := p, quantity := 1 }])
    ∧ List.Sublist (cartIds (updateQuantity cart id delta)) (cartIds cart)
    ∧ List.Sublist (cartIds (removeFromCart cart id)) (cartIds cart) := by
  refine ⟨?_, addToCart_of_none, updateQuantity_ids_sublist cart id delta,
    (removeFromCart_sublist cart id).map (fun i : CartItem => i.id)⟩
  intro hs
  rcases Option.isSome_iff_exists.mp hs with ⟨item, hitem⟩
  rw [addToCart_of_some hitem, cartIds_map _ (addIncr_id p)]

/-- Witness for C10: id order on increment and append-at-end on insert, at
concrete carts. -/
theorem cart_ops_preserve_order_witness :
    cartIds (addToCart [{ toProduct := prodA, quantity := 1 }] prodA)
      = cartIds [{ toProduct := prodA, quantity := 1 }]
    ∧ addToCart [{ toProduct := prodA, quantity := 1 }] prodB
      = [{ toProduct := prodA, quantity := 1 }]
          ++ [{ toProduct := prodB, quantity := 1 }] := by
  have h1 := cart_ops_preserve_order [{ toProduct := prodA, quantity := 1 }]
    prodA 1 1
  have h2 := cart_ops_preserve_order [{ toProduct := prodA, quantity := 1 }]
    prodB 1 1
  exact ⟨h1.1 (by decide), h2.2.1 (by decide)⟩

end CartHaven
